import Mathlib

/-!
Shallow embedding of the email-agent logic of `multi_tool_agent/quickstart.py`
(class `GmailAgent`), together with the Workflow Contract state machine of the
specification (§4.5), whose only realization in the repository is the
natural-language agent instructions of `agent.py` / `agentMULTI.py`.

Python strings are modelled as Lean `String`s; the Python string primitives
used by the source (`lower`, `startswith`, `strip`, slicing, `find`, `in`)
are given explicit definitions over the character list of the string
(`lower` with the ASCII case mapping, `strip` with the ASCII whitespace set).
The transport decoding `base64.urlsafe_b64decode(data).decode("utf-8",
errors="replace")` is modelled byte-exactly for the base64 stage (CPython
`binascii.a2b_base64`, non-strict mode, including the errors it raises) and
with the maximal-subpart replacement rule for the UTF-8 stage.
-/

/-- Python `str.lower()`, restricted to the ASCII case mapping. -/
def pyLower (s : String) : String := String.mk (s.data.map Char.toLower)

/-- Python `s.startswith(p)`. -/
def pyStartsWith (s p : String) : Bool := p.data.isPrefixOf s.data

/-- The whitespace characters removed by Python `str.strip()` (ASCII subset). -/
def pyIsSpace (c : Char) : Bool :=
  c = ' ' || c = '\t' || c = '\n' || c = '\r' || c = '\x0b' || c = '\x0c'

/-- Python `str.strip()` with no argument: drop whitespace from both ends. -/
def pyStrip (s : String) : String :=
  String.mk (((s.data.dropWhile pyIsSpace).reverse.dropWhile pyIsSpace).reverse)

/-- Python slicing `s[:n]`: the first `n` characters of `s`. -/
def pyTake (s : String) (n : Nat) : String := String.mk (s.data.take n)

/-- The subject normalization performed by `GmailAgent.send_reply`
(quickstart.py lines 395-397): prepend a literal `"Re: "` unless the subject
already starts, case-insensitively, with `"re:"`. -/
def send_reply_subject (subject : String) : String :=
  if pyStartsWith (pyLower subject) ("re:") then subject else ("Re: ") ++ subject

/-- The headers and body of the outgoing reply message built by
`GmailAgent._create_reply_message`; `none` for a header that is not set. -/
structure ReplyMessage where
  toAddr : String
  sender : String
  subject : String
  inReplyTo : Option String
  references : Option String
  bodyText : String
  threadId : String
  deriving DecidableEq

/-- Model of `GmailAgent._create_reply_message` (quickstart.py lines 346-361):
the MIME headers and plain-text body of the reply.  The final wire-format
base64 transport encoding of the whole message is not modelled. -/
def create_reply_message (sender toAddr subject replyBody threadId originalMessageId references : String) :
    ReplyMessage :=
  let newReferences :=
    if references ≠ "" then pyStrip (references ++ " " ++ originalMessageId)
    else originalMessageId
  { toAddr := toAddr
    sender := sender
    subject := subject
    inReplyTo := if originalMessageId ≠ "" then some originalMessageId else none
    references := if newReferences ≠ "" then some newReferences else none
    bodyText := replyBody
    threadId := threadId }

/-- The sender-address extraction inlined in
`GmailAgent.summarize_email_with_gemini` (quickstart.py lines 237-242); the
specification names it `extractSenderAddress`.  Python `str.find` returns the
index of the first occurrence, which under the membership guard coincides with
`List.findIdx`. -/
def extractSenderAddress (senderHeader : String) : String :=
  let cs := senderHeader.data
  if cs.contains '<' && cs.contains '>' then
    let start := cs.findIdx (fun c => c == '<') + 1
    let stop := cs.findIdx (fun c => c == '>')
    if start < stop then String.mk ((cs.drop start).take (stop - start)) else senderHeader
  else senderHeader

/-- A Gmail message payload tree as consumed by `GmailAgent._get_email_body`:
`leaf` is a payload dictionary without a `parts` key, `multi` one with a
`parts` list.  Each carries the optional `mimeType` string and the optional
`body.data` transport-encoded string (`none` when the `body` key or its
`data` key is absent). -/
inductive Payload where
  | leaf (mimeType : Option String) (bodyData : Option String)
  | multi (mimeType : Option String) (bodyData : Option String) (parts : List Payload)

/-- `part.get("mimeType")`. -/
def Payload.mimeType : Payload → Option String
  | .leaf mt _ => mt
  | .multi mt _ _ => mt

/-- `part.get("body", dict()).get("data")`. -/
def Payload.bodyData : Payload → Option String
  | .leaf _ bd => bd
  | .multi _ bd _ => bd

/-- Python `"parts" in part`. -/
def Payload.hasParts : Payload → Bool
  | .leaf _ _ => false
  | .multi _ _ _ => true

/-- First scan of `GmailAgent._get_email_body` (quickstart.py lines 105-109):
return the decoded text of the first part declared `text/plain` that carries
non-empty data; a part declared `text/plain` but with missing or empty data is
passed over.  `Except.error` models an exception raised by the decoder. -/
def plainPartScan (decode : String → Except String String) :
    List Payload → Except String (Option String)
  | [] => .ok none
  | p :: ps =>
    if p.mimeType = some ("text/plain") then
      match p.bodyData with
      | some d => if d ≠ "" then (decode d).map some else plainPartScan decode ps
      | none => plainPartScan decode ps
    else plainPartScan decode ps

mutual

/-- Model of `GmailAgent._get_email_body` (quickstart.py lines 102-127),
parameterized by the transport decoder so that the traversal policy can be
studied for an arbitrary decoder; the source fixes the decoder to
`base64.urlsafe_b64decode(data).decode("utf-8", errors="replace")`, modelled
below as `pyDecodeData`.  `Except.error` models an exception propagating out
of the function. -/
def get_email_body (decode : String → Except String String) (p : Payload) :
    Except String String :=
  match p with
  | Payload.leaf mt bd =>
    if pyStartsWith (mt.getD ("")) ("text/") then
      match bd with
      | some d => if d ≠ "" then decode d else .ok ("")
      | none => .ok ("")
    else .ok ("")
  | Payload.multi _ _ parts =>
    match plainPartScan decode parts with
    | .error e => .error e
    | .ok (some s) => .ok s
    | .ok none => htmlFallbackScan decode parts ("")
termination_by sizeOf p

/-- Second scan of `GmailAgent._get_email_body` (quickstart.py lines 111-121):
recurse into parts that themselves have parts (first non-empty nested result
returns immediately), otherwise keep the first decodable `text/html` body in
the accumulator `body`; a later HTML part is decoded only while `body` is
still the empty string. -/
def htmlFallbackScan (decode : String → Except String String)
    (parts : List Payload) (body : String) : Except String String :=
  match parts with
  | [] => .ok body
  | p :: ps =>
    if p.hasParts then
      match get_email_body decode p with
      | .error e => .error e
      | .ok nested => if nested ≠ "" then .ok nested else htmlFallbackScan decode ps body
    else if p.mimeType = some ("text/html") then
      match p.bodyData with
      | some d =>
        if d ≠ "" then
          if body = "" then
            match decode d with
            | .error e => .error e
            | .ok b => htmlFallbackScan decode ps b
          else htmlFallbackScan decode ps body
        else htmlFallbackScan decode ps body
      | none => htmlFallbackScan decode ps body
    else htmlFallbackScan decode ps body
termination_by sizeOf parts

end

/-- Value of a character in the base64 alphabet (after the URL-safe
translation), `none` for a character outside the alphabet. -/
def b64CharVal (c : Char) : Option Nat :=
  let n := c.toNat
  if 65 ≤ n ∧ n ≤ 90 then some (n - 65)
  else if 97 ≤ n ∧ n ≤ 122 then some (n - 97 + 26)
  else if 48 ≤ n ∧ n ≤ 57 then some (n - 48 + 52)
  else if n = 43 then some 62
  else if n = 47 then some 63
  else none

/-- The URL-safe alphabet translation performed by
`base64.urlsafe_b64decode`. -/
def urlsafeTranslate (c : Char) : Char :=
  if c = '-' then '+' else if c = '_' then '/' else c

/-- CPython `binascii.a2b_base64` in non-strict mode: characters outside the
alphabet are discarded; a padding character with at least two data characters
in the current quad terminates decoding once the quad is completed by padding;
at end of input a leftover quad of one data character raises the
`cannot be 1 more than a multiple of 4` error and a leftover quad of two or
three data characters without completed padding raises `Incorrect padding`.
Arguments: remaining characters, quad position, accumulated bits, seen pads,
reversed output bytes. -/
def a2bBase64Go : List Char → Nat → Nat → Nat → List Nat → Except String (List Nat)
  | [], quadPos, _, _, acc =>
    if quadPos = 0 then .ok acc.reverse
    else if quadPos = 1 then
      .error ("Invalid base64-encoded string: number of data characters cannot be 1 more than a multiple of 4")
    else .error ("Incorrect padding")
  | c :: cs, quadPos, leftchar, pads, acc =>
    if c = '=' then
      if 2 ≤ quadPos then
        if 4 ≤ quadPos + (pads + 1) then
          if quadPos = 2 then .ok ((leftchar / 16) :: acc).reverse
          else .ok ((leftchar / 4 % 256) :: (leftchar / 1024) :: acc).reverse
        else a2bBase64Go cs quadPos leftchar (pads + 1) acc
      else a2bBase64Go cs quadPos leftchar pads acc
    else
      match b64CharVal c with
      | none => a2bBase64Go cs quadPos leftchar pads acc
      | some v =>
        if quadPos = 3 then
          a2bBase64Go cs 0 0 pads
            (((leftchar * 64 + v) % 256) :: ((leftchar * 64 + v) / 256 % 256) ::
              ((leftchar * 64 + v) / 65536) :: acc)
        else a2bBase64Go cs (quadPos + 1) (leftchar * 64 + v) pads acc

/-- `base64.urlsafe_b64decode` applied to a `str` argument: ASCII-encode the
string (raising on a non-ASCII character), translate the URL-safe alphabet,
then decode as `binascii.a2b_base64` in non-strict mode. -/
def urlsafe_b64decode (s : String) : Except String (List Nat) :=
  if s.data.all (fun c => c.toNat < 128) then
    a2bBase64Go (s.data.map urlsafeTranslate) 0 0 0 []
  else .error ("string argument should contain only ASCII characters")

/-- The UTF-8 replacement character U+FFFD. -/
def replChar : Char := Char.ofNat 0xFFFD

/-- One non-ASCII UTF-8 sequence step: given the first byte `b` and the bytes
after it, return `(some c, k)` when a complete valid sequence consuming `k`
continuation bytes decodes to `c`, and `(none, k)` when the maximal valid
prefix of a sequence consumes `k` continuation bytes and is replaced by a
single U+FFFD.  The accepted ranges exclude overlong forms, surrogates and
values above U+10FFFF, as CPython's decoder does. -/
def utf8Decode1 (b : Nat) (bs : List Nat) : Option Char × Nat :=
  let info : Option (Nat × Nat × Nat) :=
    if 194 ≤ b ∧ b ≤ 223 then some (1, 128, 191)
    else if b = 224 then some (2, 160, 191)
    else if (225 ≤ b ∧ b ≤ 236) ∨ b = 238 ∨ b = 239 then some (2, 128, 191)
    else if b = 237 then some (2, 128, 159)
    else if b = 240 then some (3, 144, 191)
    else if 241 ≤ b ∧ b ≤ 243 then some (3, 128, 191)
    else if b = 244 then some (3, 128, 143)
    else none
  match info with
  | none => (none, 0)
  | some (1, lo, hi) =>
    match bs with
    | b2 :: _ =>
      if lo ≤ b2 ∧ b2 ≤ hi then (some (Char.ofNat ((b - 192) * 64 + (b2 - 128))), 1)
      else (none, 0)
    | [] => (none, 0)
  | some (2, lo, hi) =>
    match bs with
    | b2 :: b3 :: _ =>
      if lo ≤ b2 ∧ b2 ≤ hi then
        if 128 ≤ b3 ∧ b3 ≤ 191 then
          (some (Char.ofNat ((b - 224) * 4096 + (b2 - 128) * 64 + (b3 - 128))), 2)
        else (none, 1)
      else (none, 0)
    | [b2] => if lo ≤ b2 ∧ b2 ≤ hi then (none, 1) else (none, 0)
    | [] => (none, 0)
  | some (3, lo, hi) =>
    match bs with
    | b2 :: b3 :: b4 :: _ =>
      if lo ≤ b2 ∧ b2 ≤ hi then
        if 128 ≤ b3 ∧ b3 ≤ 191 then
          if 128 ≤ b4 ∧ b4 ≤ 191 then
            (some (Char.ofNat ((b - 240) * 262144 + (b2 - 128) * 4096 + (b3 - 128) * 64 + (b4 - 128))), 3)
          else (none, 2)
        else (none, 1)
      else (none, 0)
    | [b2, b3] =>
      if lo ≤ b2 ∧ b2 ≤ hi then
        if 128 ≤ b3 ∧ b3 ≤ 191 then (none, 2) else (none, 1)
      else (none, 0)
    | [b2] => if lo ≤ b2 ∧ b2 ≤ hi then (none, 1) else (none, 0)
    | [] => (none, 0)
  | some (_, _, _) => (none, 0)

/-- Fueled wrapper of the UTF-8 replacing decoder; each step consumes at least
one byte, so fuel equal to the byte-list length never runs out. -/
def utf8GoF : Nat → List Nat → List Char
  | _, [] => []
  | 0, _ :: _ => []
  | fuel + 1, b :: bs =>
    if b < 128 then Char.ofNat b :: utf8GoF fuel bs
    else
      match utf8Decode1 b bs with
      | (some c, k) => c :: utf8GoF fuel (bs.drop k)
      | (none, k) => replChar :: utf8GoF fuel (bs.drop k)

/-- `bytes.decode("utf-8", errors="replace")`: total, never raising. -/
def utf8DecodeReplace (bytes : List Nat) : String :=
  String.mk (utf8GoF bytes.length bytes)

/-- The transport decoding used throughout `GmailAgent._get_email_body`:
`base64.urlsafe_b64decode(data).decode("utf-8", errors="replace")`.  The
UTF-8 stage replaces invalid bytes and never fails; the base64 stage raises
(`Except.error`) on malformed input, exactly as `binascii.a2b_base64` does. -/
def pyDecodeData (s : String) : Except String String :=
  (urlsafe_b64decode s).map utf8DecodeReplace

/-- The header extraction pattern used throughout quickstart.py:
`next((h.value for h in headers if h.name.lower() == name), default)`,
a case-insensitive scan returning a documented default when absent. -/
def headerLookup (headers : List (String × String)) (name dflt : String) : String :=
  match headers.find? (fun h => pyLower h.1 == name) with
  | some h => h.2
  | none => dflt

/-- A message as fetched with `format="full"` for summarization: its thread
id, its payload headers (name, value) and its payload tree. -/
structure FetchedMessage where
  threadId : Option String
  headers : List (String × String)
  payload : Payload

/-- The result envelope of `summarize_email_with_gemini`: the success fields
of the returned dictionary, or the error message of an error envelope. -/
inductive SummarizeResult where
  | success (summary subject originalBody senderEmail : String)
      (threadId : Option String) (originalMessageId references : String)
  | error (errorMessage : String)
  deriving DecidableEq

/-- The `status` field of the summarize envelope. -/
def SummarizeResult.statusOf : SummarizeResult → String
  | .success .. => "success"
  | .error _ => "error"

/-- The `original_body` field of the summarize envelope (absent on error). -/
def SummarizeResult.originalBodyOf : SummarizeResult → Option String
  | .success _ _ b _ _ _ _ => some b
  | .error _ => none

/-- The `summary` field of the summarize envelope (absent on error). -/
def SummarizeResult.summaryOf : SummarizeResult → Option String
  | .success s _ _ _ _ _ _ => some s
  | .error _ => none

/-- The summarization prompt of quickstart.py line 250, embedding the subject
and the first 3000 characters of the body. -/
def summarizePrompt (subject emailBody : String) : String :=
  "Summarize the following email concisely:\n\nSubject: " ++ subject ++
    "\n\nBody:\n" ++ pyTake emailBody 3000 ++ "\n\nSummary:"

/-- Model of `GmailAgent.summarize_email_with_gemini` (quickstart.py lines
226-267) after a successful fetch of the message, parameterized by the
generation backend `gen` (`self.gemini_model.generate_content`, whose failure
is an `Except.error`).  A decoder exception escaping `_get_email_body` is
caught by the enclosing generic handler, giving an error envelope. -/
def summarize_email_with_gemini (gen : String → Except String String)
    (msg : FetchedMessage) : SummarizeResult :=
  let subject := headerLookup msg.headers ("subject") ("No Subject")
  let senderHeader := headerLookup msg.headers ("from") ("")
  let originalMessageId := headerLookup msg.headers ("message-id") ("")
  let references := headerLookup msg.headers ("references") ("")
  let senderEmail := extractSenderAddress senderHeader
  match get_email_body pyDecodeData msg.payload with
  | .error e => .error ("An unexpected error occurred during summarization: " ++ e)
  | .ok emailBody =>
    if emailBody = "" then
      .success ("Could not extract email body to summarize.") subject emailBody senderEmail
        msg.threadId originalMessageId references
    else
      match gen (summarizePrompt subject emailBody) with
      | .error ge => .error ("Gemini content generation failed: " ++ ge)
      | .ok t =>
        .success t subject emailBody senderEmail msg.threadId originalMessageId references

/-- A message as fetched with `format="metadata"` during listing or search:
its thread id and its payload headers. -/
structure MetaMessage where
  threadId : Option String
  headers : List (String × String)
  deriving DecidableEq

/-- One entry of the `emails` list built by `list_recent_emails` and
`search_emails`. -/
structure EmailRecord where
  id : String
  threadId : Option String
  subject : String
  sender : String
  date : String
  deriving DecidableEq

/-- The per-message record construction of quickstart.py lines 170-182. -/
def metaRecord (id : String) (m : MetaMessage) : EmailRecord :=
  { id := id
    threadId := m.threadId
    subject := headerLookup m.headers ("subject") ("No Subject")
    sender := headerLookup m.headers ("from") ("Unknown Sender")
    date := headerLookup m.headers ("date") ("No Date") }

/-- The result envelope of `list_recent_emails` / `search_emails`. -/
inductive ListEmailsResult where
  | success (emails : List EmailRecord)
  | error (errorMessage : String)
  deriving DecidableEq

/-- The per-id fetch loop of quickstart.py lines 161-187: a failed metadata
fetch (`Except.error`) is logged and the message skipped; a successful fetch
appends its record, preserving the id order. -/
def fetchMetadataLoop (fetch : String → Except String MetaMessage) :
    List String → List EmailRecord
  | [] => []
  | i :: is =>
    match fetch i with
    | .ok m => metaRecord i m :: fetchMetadataLoop fetch is
    | .error _ => fetchMetadataLoop fetch is

/-- Model of `GmailAgent.list_recent_emails` (quickstart.py lines 148-195)
given the outcome `listing` of the initial list call (the ids returned by the
mailbox, or its error) and the per-message metadata fetcher. -/
def list_recent_emails (fetch : String → Except String MetaMessage)
    (listing : Except String (List String)) : ListEmailsResult :=
  match listing with
  | .error e => .error ("An API error occurred listing emails: " ++ e)
  | .ok ids => if ids = [] then .success [] else .success (fetchMetadataLoop fetch ids)

/-- A metadata fetcher failing exactly on message id `"3"`, for the
one-corrupted-message-among-ten scenario. -/
def corruptedFetch (i : String) : Except String MetaMessage :=
  if i = "3" then .error ("HttpError 500")
  else .ok { threadId := some ("t" ++ i), headers := [("Subject", "s" ++ i)] }

/-- Ten message ids as returned by a listing call. -/
def tenIds : List String := ["0", "1", "2", "3", "4", "5", "6", "7", "8", "9"]

/-- Modelled from the spec: the states of the Workflow Contract state machine
of §4.5.  The machine itself is missing from the source as executable code:
its host is the external LLM orchestration layer, and the repository realizes
it only as the natural-language instructions `AGENT_INSTRUCTION`
(agent.py lines 31-38) and `ROOT_AGENT_INSTRUCTION` (agentMULTI.py line 30). -/
inductive WfState where
  | Idle | Searching | Summarized | Drafted | AwaitingConfirmation | Sent
  deriving DecidableEq

/-- A user response observed while awaiting confirmation. -/
inductive WfResp where
  | affirmative | negative | ambiguous
  deriving DecidableEq

/-- The observable label of one workflow step: the user response consumed by
the step, if any, and whether the step invokes the `sendReply` operation. -/
structure WfLabel where
  response : Option WfResp
  sendInvoked : Bool
  deriving DecidableEq

/-- Modelled from the spec: the transitions of the Workflow Contract (§4.5).
`sendReply` is invoked exactly in the `confirmSend` transition, which
consumes an affirmative response in state `AwaitingConfirmation`; any
non-affirmative response returns the machine to `Idle` without invoking it. -/
inductive WfStep : WfState → WfLabel → WfState → Prop where
  | search : WfStep .Idle ⟨none, false⟩ .Searching
  | summarizeDirect : WfStep .Idle ⟨none, false⟩ .Summarized
  | summarizeFound : WfStep .Searching ⟨none, false⟩ .Summarized
  | draft : WfStep .Summarized ⟨none, false⟩ .Drafted
  | surface : WfStep .Drafted ⟨none, false⟩ .AwaitingConfirmation
  | confirmSend : WfStep .AwaitingConfirmation ⟨some .affirmative, true⟩ .Sent
  | decline (r : WfResp) (h : r ≠ .affirmative) :
      WfStep .AwaitingConfirmation ⟨some r, false⟩ .Idle
  | finish : WfStep .Sent ⟨none, false⟩ .Idle

/-- A run of the workflow machine: the chained steps from a start state to an
end state, recording the label of every step. -/
inductive WfRun : WfState → List WfLabel → WfState → Prop where
  | nil (s : WfState) : WfRun s [] s
  | cons {s s1 s2 : WfState} {l : WfLabel} {ls : List WfLabel} :
      WfStep s l s1 → WfRun s1 ls s2 → WfRun s (l :: ls) s2

/-- Number of steps of a run that invoke `sendReply`. -/
def sendCount (ls : List WfLabel) : Nat :=
  (ls.filter (fun l => l.sendInvoked)).length

/-- Number of steps of a run that consume an affirmative confirmation. -/
def affirmCount (ls : List WfLabel) : Nat :=
  (ls.filter (fun l => l.response == some WfResp.affirmative)).length

/-- Unfolding equation of `get_email_body` for a payload without parts. -/
theorem get_email_body_leaf (decode : String → Except String String) (mt bd : Option String) :
    get_email_body decode (Payload.leaf mt bd) =
      (if pyStartsWith (mt.getD ("")) ("text/") then
        match bd with
        | some d => if d ≠ "" then decode d else Except.ok ("")
        | none => Except.ok ("")
      else Except.ok ("")) := by
  unfold get_email_body
  rfl

/-- Unfolding equation of `get_email_body` for a payload with parts. -/
theorem get_email_body_multi (decode : String → Except String String) (mt bd : Option String)
    (parts : List Payload) :
    get_email_body decode (Payload.multi mt bd parts) =
      (match plainPartScan decode parts with
      | .error e => .error e
      | .ok (some s) => .ok s
      | .ok none => htmlFallbackScan decode parts ("")) := by
  unfold get_email_body
  rfl

/-- Unfolding equation of the second scan on an empty part list. -/
theorem htmlFallbackScan_nil (decode : String → Except String String) (body : String) :
    htmlFallbackScan decode [] body = .ok body := by
  unfold htmlFallbackScan
  rfl

/-- Unfolding equation of the second scan on a non-empty part list. -/
theorem htmlFallbackScan_cons (decode : String → Except String String) (p : Payload)
    (ps : List Payload) (body : String) :
    htmlFallbackScan decode (p :: ps) body =
      (if p.hasParts then
        match get_email_body decode p with
        | .error e => .error e
        | .ok nested => if nested ≠ "" then .ok nested else htmlFallbackScan decode ps body
      else if p.mimeType = some ("text/html") then
        match p.bodyData with
        | some d =>
          if d ≠ "" then
            if body = "" then
              match decode d with
              | .error e => .error e
              | .ok b => htmlFallbackScan decode ps b
            else htmlFallbackScan decode ps body
          else htmlFallbackScan decode ps body
        | none => htmlFallbackScan decode ps body
      else htmlFallbackScan decode ps body) := by
  conv_lhs => rw [htmlFallbackScan.eq_def]

/-- C6 (amended): `extractSenderAddress` returns the substring strictly
between the first angle brackets when both are present and the first `<` is
at least two positions before the first `>`; otherwise — including when `<`
immediately precedes `>` — it returns the input unchanged. -/
theorem extract_sender_address_spec :
    (∀ hdr : String, (hdr.data.contains '<' && hdr.data.contains '>') = true →
      hdr.data.findIdx (fun c => c == '<') + 1 < hdr.data.findIdx (fun c => c == '>') →
      extractSenderAddress hdr =
        String.mk ((hdr.data.drop (hdr.data.findIdx (fun c => c == '<') + 1)).take
          (hdr.data.findIdx (fun c => c == '>') - (hdr.data.findIdx (fun c => c == '<') + 1)))) ∧
    (∀ hdr : String, (hdr.data.contains '<' && hdr.data.contains '>') = false →
      extractSenderAddress hdr = hdr) ∧
    (∀ hdr : String,
      ¬ (hdr.data.findIdx (fun c => c == '<') + 1 < hdr.data.findIdx (fun c => c == '>')) →
      extractSenderAddress hdr = hdr) ∧
    extractSenderAddress ("Name <addr>") = "addr" ∧
    extractSenderAddress ("no angle brackets") = "no angle brackets" := by
  refine ⟨?_, ?_, ?_, by decide, by decide⟩
  · intro hdr h1 h2
    simp only [extractSenderAddress, h1, eq_self_iff_true, if_true]
    rw [if_pos h2]
  · intro hdr h1
    simp only [extractSenderAddress, h1, Bool.false_eq_true, if_false]
  · intro hdr h2
    by_cases h1 : (hdr.data.contains '<' && hdr.data.contains '>') = true
    · simp only [extractSenderAddress, h1, eq_self_iff_true, if_true]
      rw [if_neg h2]
    · rw [Bool.not_eq_true] at h1
      simp only [extractSenderAddress, h1, Bool.false_eq_true, if_false]

/-- The character data of an appended string. -/
theorem data_append (s t : String) : (s ++ t).data = s.data ++ t.data := rfl

/-- Prepending a literal capital prefix makes the lowered string start with
the lowered prefix. -/
theorem pyStartsWith_re_prepend (s : String) :
    pyStartsWith (pyLower ("Re: " ++ s)) ("re:") = true := by
  simp [pyStartsWith, pyLower, data_append, List.isPrefixOf]

/-- C3: The `send_reply` subject normalization always yields a subject that
starts case-insensitively with `Re:`; the prefix `Re: ` is added exactly when
the subject does not already start with `re:` case-insensitively; normalizing
`Re: X` and `X` both give `Re: X`; and normalizing twice equals normalizing
once. -/
theorem send_reply_subject_spec :
    (∀ s, pyStartsWith (pyLower (send_reply_subject s)) ("re:") = true) ∧
    (∀ s, pyStartsWith (pyLower s) ("re:") = true → send_reply_subject s = s) ∧
    (∀ s, pyStartsWith (pyLower s) ("re:") = false → send_reply_subject s = "Re: " ++ s) ∧
    send_reply_subject ("Re: X") = "Re: X" ∧
    send_reply_subject ("X") = "Re: X" ∧
    (∀ s, send_reply_subject (send_reply_subject s) = send_reply_subject s) := by
  have h2 : ∀ s, pyStartsWith (pyLower s) ("re:") = true → send_reply_subject s = s := by
    intro s h
    simp [send_reply_subject, h]
  have h3 : ∀ s, pyStartsWith (pyLower s) ("re:") = false → send_reply_subject s = "Re: " ++ s := by
    intro s h
    simp [send_reply_subject, h]
  have h1 : ∀ s, pyStartsWith (pyLower (send_reply_subject s)) ("re:") = true := by
    intro s
    by_cases h : pyStartsWith (pyLower s) ("re:") = true
    · rw [h2 s h]
      exact h
    · rw [h3 s (by simpa using h)]
      exact pyStartsWith_re_prepend s
  exact ⟨h1, h2, h3, by decide, by decide, fun s => h2 _ (h1 s)⟩

/-- Concrete instances of the `send_reply` subject normalization. -/
theorem send_reply_subject_spec_witness :
    send_reply_subject ("Re: X") = "Re: X" ∧ send_reply_subject ("X") = "Re: " ++ "X" :=
  ⟨send_reply_subject_spec.2.1 ("Re: X") (by decide),
   send_reply_subject_spec.2.2.1 ("X") (by decide)⟩

/-- C2: `_create_reply_message` sets References to the original references,
a space and the original message id, trimmed — equal to the message id alone
when the references are empty — omitting the header when that string is
empty, and omits In-Reply-To exactly when the original message id is empty;
in particular the empty-references and `<a> <b>` instances of the claim. -/
theorem create_reply_references_spec :
    (∀ sender toAddr subj body tid mid refs,
      ((create_reply_message sender toAddr subj body tid mid refs).references =
        (if refs = "" then (if mid = "" then none else some mid)
         else (if pyStrip (refs ++ " " ++ mid) = "" then none
               else some (pyStrip (refs ++ " " ++ mid)))) ∧
       ((create_reply_message sender toAddr subj body tid mid refs).inReplyTo = none ↔ mid = ""))) ∧
    (create_reply_message ("me") ("you") ("Re: s") ("b") ("t") ("<m1>") ("")).references = some ("<m1>") ∧
    (create_reply_message ("me") ("you") ("Re: s") ("b") ("t") ("<m1>") ("<a> <b>")).references = some ("<a> <b> <m1>") ∧
    (create_reply_message ("me") ("you") ("Re: s") ("b") ("t") ("") ("")).references = none ∧
    (create_reply_message ("me") ("you") ("Re: s") ("b") ("t") ("") ("")).inReplyTo = none ∧
    (create_reply_message ("me") ("you") ("Re: s") ("b") ("t") ("<m1>") ("")).inReplyTo = some ("<m1>") := by
  refine ⟨?_, by decide, by decide, by decide, by decide, by decide⟩
  intro sender toAddr subj body tid mid refs
  constructor
  · by_cases h : refs = "" <;> simp [create_reply_message, h]
  · by_cases h : mid = "" <;> simp [create_reply_message, h]

/-- Concrete instances of the sender-address extraction. -/
theorem extract_sender_address_spec_witness :
    extractSenderAddress ("Name <addr>") =
      String.mk (((("Name <addr>" : String)).data.drop
        ((("Name <addr>" : String)).data.findIdx (fun c => c == '<') + 1)).take
        ((("Name <addr>" : String)).data.findIdx (fun c => c == '>') -
          ((("Name <addr>" : String)).data.findIdx (fun c => c == '<') + 1))) ∧
    extractSenderAddress ("nobrackets") = "nobrackets" :=
  ⟨extract_sender_address_spec.1 ("Name <addr>") (by decide) (by decide),
   extract_sender_address_spec.2.1 ("nobrackets") (by decide)⟩

/-- C6 counterexample: in `a<>b` both brackets occur and `<` occurs before
`>`, the substring strictly between them is empty, yet the function returns
the input unchanged rather than the empty substring. -/
theorem extract_sender_address_counterexample :
    (("a<>b" : String).data.contains '<' && ("a<>b" : String).data.contains '>') = true ∧
    ("a<>b" : String).data.findIdx (fun c => c == '<') <
      ("a<>b" : String).data.findIdx (fun c => c == '>') ∧
    String.mk ((("a<>b" : String).data.drop
        (("a<>b" : String).data.findIdx (fun c => c == '<') + 1)).take
      (("a<>b" : String).data.findIdx (fun c => c == '>') -
        (("a<>b" : String).data.findIdx (fun c => c == '<') + 1))) = "" ∧
    extractSenderAddress ("a<>b") = "a<>b" ∧ ("a<>b" : String) ≠ "" := by
  decide

/-- C1: In the Workflow Contract state machine (modelled from the spec,
§4.5), a step invokes `sendReply` only when its source state is
`AwaitingConfirmation` and it consumes an affirmative response; on any
non-affirmative response the machine returns to `Idle` without invoking
`sendReply`; and along any run the number of send invocations is at most the
number of affirmative confirmations (at most once per confirmation). -/
theorem workflow_send_gate :
    (∀ s l s1, WfStep s l s1 → l.sendInvoked = true →
      s = WfState.AwaitingConfirmation ∧ l.response = some WfResp.affirmative) ∧
    (∀ s l s1 r, WfStep s l s1 → l.response = some r → r ≠ WfResp.affirmative →
      l.sendInvoked = false ∧ s1 = WfState.Idle) ∧
    (∀ s ls s1, WfRun s ls s1 → sendCount ls ≤ affirmCount ls) := by
  refine ⟨?_, ?_, ?_⟩
  · intro s l s1 h hs
    cases h <;> simp_all
  · intro s l s1 r h hr hne
    cases h <;> simp_all
  · intro s ls s1 h
    induction h with
    | nil s => simp [sendCount, affirmCount]
    | cons step rest ih =>
      cases step <;> simp_all [sendCount, affirmCount, List.filter_cons]

/-- The workflow gate applied to the concrete confirm, decline and
one-confirmation-run steps. -/
theorem workflow_send_gate_witness :
    ((WfState.AwaitingConfirmation = WfState.AwaitingConfirmation ∧
      (WfLabel.mk (some WfResp.affirmative) true).response = some WfResp.affirmative)) ∧
    ((WfLabel.mk (some WfResp.negative) false).sendInvoked = false ∧
      (WfState.Idle : WfState) = WfState.Idle) ∧
    sendCount [WfLabel.mk (some WfResp.affirmative) true] ≤
      affirmCount [WfLabel.mk (some WfResp.affirmative) true] :=
  ⟨workflow_send_gate.1 _ _ _ WfStep.confirmSend rfl,
   workflow_send_gate.2.1 _ _ _ _ (WfStep.decline WfResp.negative (by decide)) rfl (by decide),
   workflow_send_gate.2.2 _ _ _ (WfRun.cons WfStep.confirmSend (WfRun.nil _))⟩

/-- The first scan returns the decode of the first `text/plain` part that
carries non-empty data. -/
theorem plainPartScan_found (decode : String → Except String String)
    (parts : List Payload) (q : Payload)
    (hq : parts.find?
      (fun p => p.mimeType == some ("text/plain") && !(p.bodyData.getD ("") == "")) = some q) :
    plainPartScan decode parts = (decode (q.bodyData.getD (""))).map some := by
  induction parts with
  | nil => simp at hq
  | cons p ps ih =>
    by_cases hpred : (p.mimeType == some ("text/plain") && !(p.bodyData.getD ("") == "")) = true
    · simp only [List.find?, hpred] at hq
      obtain rfl : p = q := by injection hq
      simp only [Bool.and_eq_true, beq_iff_eq, Bool.not_eq_true', beq_eq_false_iff_ne] at hpred
      obtain ⟨hmt, hbd⟩ := hpred
      cases hb : p.bodyData with
      | some d =>
        rw [hb] at hbd
        simp only [Option.getD_some] at hbd
        simp [plainPartScan, hmt, hb, hbd]
      | none =>
        rw [hb] at hbd
        simp at hbd
    · rw [Bool.not_eq_true] at hpred
      simp only [List.find?, hpred] at hq
      have hrec := ih hq
      by_cases hmt : p.mimeType = some ("text/plain")
      · have hbd : p.bodyData.getD ("") = "" := by
          by_contra hne
          rw [hmt] at hpred
          simp [hne] at hpred
        cases hb : p.bodyData with
        | some d =>
          rw [hb] at hbd
          simp only [Option.getD_some] at hbd
          simp [plainPartScan, hmt, hb, hbd, hrec]
        | none => simp [plainPartScan, hmt, hb, hrec]
      · simp [plainPartScan, hmt, hrec]

/-- C4 (amended): when some top-level part is declared `text/plain` and
carries non-empty data, `extractBody` returns the transport-decoding of the
FIRST such part (errors of that decoding propagate); a part declared
`text/plain` whose data is missing or empty is passed over, so the original
claim holds only under the added non-empty-data condition. -/
theorem extract_body_first_plain (decode : String → Except String String)
    (mt bd : Option String) (parts : List Payload) (q : Payload)
    (hq : parts.find?
      (fun p => p.mimeType == some ("text/plain") && !(p.bodyData.getD ("") == "")) = some q) :
    get_email_body decode (Payload.multi mt bd parts) = decode (q.bodyData.getD ("")) := by
  rw [get_email_body_multi, plainPartScan_found decode parts q hq]
  cases h : decode (q.bodyData.getD ("")) <;> simp [Except.map]

/-- The amended first-plain-part property at a concrete payload. -/
theorem extract_body_first_plain_witness :
    ([Payload.leaf (some ("text/plain")) (some ("aGk="))].find?
      (fun p => p.mimeType == some ("text/plain") && !(p.bodyData.getD ("") == "")) =
      some (Payload.leaf (some ("text/plain")) (some ("aGk=")))) ∧
    get_email_body pyDecodeData
      (Payload.multi none none [Payload.leaf (some ("text/plain")) (some ("aGk="))]) =
      pyDecodeData ("aGk=") :=
  ⟨rfl,
    extract_body_first_plain pyDecodeData none none
      [Payload.leaf (some ("text/plain")) (some ("aGk="))]
      (Payload.leaf (some ("text/plain")) (some ("aGk="))) rfl⟩

/-- C4 counterexample: the first part is declared `text/plain` but carries
no data, and `extractBody` returns the decoded content `hi` of the HTML
part — HTML-derived content despite a `text/plain` part being present. -/
theorem extract_body_plain_counterexample :
    (Payload.leaf (some ("text/plain")) none).mimeType = some ("text/plain") ∧
    get_email_body pyDecodeData (Payload.multi none none
      [Payload.leaf (some ("text/plain")) none, Payload.leaf (some ("text/html")) (some ("aGk="))]) =
      .ok ("hi") ∧
    pyDecodeData ("aGk=") = .ok ("hi") ∧ ("hi" : String) ≠ "" := by
  have hd : pyDecodeData ("aGk=") = .ok ("hi") := rfl
  have h1 : plainPartScan pyDecodeData
      [Payload.leaf (some ("text/plain")) none, Payload.leaf (some ("text/html")) (some ("aGk="))] =
      .ok none := rfl
  refine ⟨rfl, ?_, hd, by decide⟩
  rw [get_email_body_multi, h1]
  simp [htmlFallbackScan_cons, htmlFallbackScan_nil, Payload.hasParts, Payload.mimeType,
    Payload.bodyData, hd, String.reduceEq]

/-- The first scan finds nothing when no part is declared `text/plain`. -/
theorem plainPartScan_none_of_no_plain (decode : String → Except String String)
    (parts : List Payload) (h : ∀ p ∈ parts, p.mimeType ≠ some ("text/plain")) :
    plainPartScan decode parts = .ok none := by
  induction parts with
  | nil => rfl
  | cons p ps ih =>
    have hp := h p (by simp)
    simp [plainPartScan, hp, ih fun p hp => h p (by simp [hp])]

/-- Once a non-empty fallback body is captured, scanning further HTML
leaves never changes it. -/
theorem htmlFallbackScan_stable (decode : String → Except String String)
    (parts : List Payload) (body : String)
    (hall : ∀ p ∈ parts, ∃ d, p = Payload.leaf (some ("text/html")) d)
    (hbody : body ≠ "") :
    htmlFallbackScan decode parts body = .ok body := by
  induction parts with
  | nil => exact htmlFallbackScan_nil decode body
  | cons p ps ih =>
    obtain ⟨d, rfl⟩ := hall p (by simp)
    have ihr := ih fun p hp => hall p (by simp [hp])
    rw [htmlFallbackScan_cons]
    simp only [Payload.hasParts, Payload.mimeType, Payload.bodyData, Bool.false_eq_true, if_false,
      if_true]
    cases d with
    | none => exact ihr
    | some d =>
      by_cases hd : d = ""
      · simp [hd, ihr]
      · simp [hd, hbody, ihr]

/-- Over HTML-only leaves, the second scan returns the decode of the first
part with non-empty data, provided that decode is non-empty. -/
theorem htmlFallbackScan_first_html (decode : String → Except String String)
    (parts : List Payload) (q : Payload) (s : String)
    (hall : ∀ p ∈ parts, ∃ d, p = Payload.leaf (some ("text/html")) d)
    (hq : parts.find? (fun p => !(p.bodyData.getD ("") == "")) = some q)
    (hdec : decode (q.bodyData.getD ("")) = .ok s) (hs : s ≠ "") :
    htmlFallbackScan decode parts ("") = .ok s := by
  induction parts with
  | nil => simp at hq
  | cons p ps ih =>
    obtain ⟨d, rfl⟩ := hall p (by simp)
    by_cases hpred : (!((Payload.leaf (some ("text/html")) d).bodyData.getD ("") == "")) = true
    · simp only [List.find?, hpred] at hq
      obtain rfl : Payload.leaf (some ("text/html")) d = q := by injection hq
      simp only [Payload.bodyData, Bool.not_eq_true', beq_eq_false_iff_ne] at hpred
      cases d with
      | none => simp [Payload.bodyData] at hpred
      | some d =>
        simp only [Payload.bodyData, Option.getD_some] at hpred hdec
        rw [htmlFallbackScan_cons]
        simp only [Payload.hasParts, Payload.mimeType, Payload.bodyData, Bool.false_eq_true,
          if_false, if_true]
        rw [if_pos hpred, hdec]
        exact htmlFallbackScan_stable decode ps s (fun p hp => hall p (by simp [hp])) hs
    · rw [Bool.not_eq_true] at hpred
      simp only [List.find?, hpred] at hq
      have ihr := ih (fun p hp => hall p (by simp [hp])) hq
      simp only [Bool.not_eq_false', beq_iff_eq] at hpred
      rw [htmlFallbackScan_cons]
      simp only [Payload.hasParts, Payload.mimeType, Payload.bodyData, Bool.false_eq_true,
        if_false, if_true]
      cases d with
      | none => exact ihr
      | some d =>
        simp only [Payload.bodyData, Option.getD_some] at hpred
        simp [hpred, ihr]

/-- C5 (amended): for a payload whose top-level parts are all HTML-typed
leaves, `extractBody` returns the decoded text of the first HTML part with
non-empty data provided that text is non-empty; when it decodes to the empty
string the scan continues, so the original claim's `even if the first HTML
part decodes to an empty string` holds only under the added
non-empty-decode condition. -/
theorem extract_body_first_nonempty_html (decode : String → Except String String)
    (mt bd : Option String) (parts : List Payload) (q : Payload) (s : String)
    (hall : ∀ p ∈ parts, ∃ d, p = Payload.leaf (some ("text/html")) d)
    (hq : parts.find? (fun p => !(p.bodyData.getD ("") == "")) = some q)
    (hdec : decode (q.bodyData.getD ("")) = .ok s) (hs : s ≠ "") :
    get_email_body decode (Payload.multi mt bd parts) = .ok s := by
  have hnoplain : ∀ p ∈ parts, p.mimeType ≠ some ("text/plain") := by
    intro p hp
    obtain ⟨d, rfl⟩ := hall p hp
    simp [Payload.mimeType]
  rw [get_email_body_multi, plainPartScan_none_of_no_plain decode parts hnoplain]
  exact htmlFallbackScan_first_html decode parts q s hall hq hdec hs

/-- The amended first-HTML-part property at a concrete payload. -/
theorem extract_body_first_nonempty_html_witness :
    get_email_body pyDecodeData
      (Payload.multi none none [Payload.leaf (some ("text/html")) (some ("eW8="))]) = .ok ("yo") :=
  extract_body_first_nonempty_html pyDecodeData none none
    [Payload.leaf (some ("text/html")) (some ("eW8="))]
    (Payload.leaf (some ("text/html")) (some ("eW8="))) ("yo")
    (by intro p hp; simp at hp; exact ⟨some ("eW8="), hp⟩)
    rfl rfl (by decide)

/-- C5 counterexample: both parts are HTML leaves, the first decodes to the
empty string (its data holds no base64 payload), and the SECOND part's
content `yo` is returned — a later HTML part's content appears. -/
theorem extract_body_html_counterexample :
    pyDecodeData ("\n") = .ok ("") ∧
    get_email_body pyDecodeData (Payload.multi none none
      [Payload.leaf (some ("text/html")) (some ("\n")),
       Payload.leaf (some ("text/html")) (some ("eW8="))]) = .ok ("yo") ∧
    pyDecodeData ("eW8=") = .ok ("yo") ∧ ("yo" : String) ≠ "" := by
  have hd1 : pyDecodeData ("\n") = .ok ("") := rfl
  have hd2 : pyDecodeData ("eW8=") = .ok ("yo") := rfl
  have h1 : plainPartScan pyDecodeData
      [Payload.leaf (some ("text/html")) (some ("\n")),
       Payload.leaf (some ("text/html")) (some ("eW8="))] = .ok none := rfl
  refine ⟨hd1, ?_, hd2, by decide⟩
  rw [get_email_body_multi, h1]
  simp [htmlFallbackScan_cons, htmlFallbackScan_nil, Payload.hasParts, Payload.mimeType,
    Payload.bodyData, hd1, hd2, String.reduceEq]

/-- The per-id fetch loop keeps exactly the successfully fetched messages,
in id order. -/
theorem fetchMetadataLoop_eq_filterMap (fetch : String → Except String MetaMessage)
    (ids : List String) :
    fetchMetadataLoop fetch ids =
      ids.filterMap (fun i => ((fetch i).toOption).map (metaRecord i)) := by
  induction ids with
  | nil => rfl
  | cons i is ih =>
    cases h : fetch i <;> simp [fetchMetadataLoop, h, ih, Except.toOption]

/-- C8: for every id list returned by the listing call, the call returns
status success with one record per successfully fetched id, in the original
id order, skipping exactly the failed ids; in particular one corrupted
message among ten yields nine records and success. -/
theorem list_recent_emails_skips_failures :
    (∀ fetch ids, list_recent_emails fetch (.ok ids) =
      .success (ids.filterMap (fun i => ((fetch i).toOption).map (metaRecord i)))) ∧
    list_recent_emails corruptedFetch (.ok tenIds) =
      .success (tenIds.filterMap (fun i => ((corruptedFetch i).toOption).map (metaRecord i))) ∧
    (tenIds.filterMap (fun i => ((corruptedFetch i).toOption).map (metaRecord i))).length = 9 ∧
    (tenIds.filterMap (fun i => ((corruptedFetch i).toOption).map (metaRecord i))).map
      EmailRecord.id = ["0", "1", "2", "4", "5", "6", "7", "8", "9"] := by
  refine ⟨?_, by decide, by decide, by decide⟩
  intro fetch ids
  match ids with
  | [] => rfl
  | i :: is =>
    simp [list_recent_emails, fetchMetadataLoop_eq_filterMap]

/-- C7: summarizing a message whose extracted body is empty yields status
success with the fixed placeholder summary and never consults the generation
backend (the result is independent of it); with a non-empty body, the result
depends on the backend only through the prompt embedding the subject and
only the first 3000 characters of the body. -/
theorem summarize_empty_body_spec :
    (∀ gen gen' : String → Except String String, ∀ msg : FetchedMessage,
      get_email_body pyDecodeData msg.payload = .ok ("") →
      summarize_email_with_gemini gen msg =
        SummarizeResult.success ("Could not extract email body to summarize.")
          (headerLookup msg.headers ("subject") ("No Subject")) ("")
          (extractSenderAddress (headerLookup msg.headers ("from") ("")))
          msg.threadId (headerLookup msg.headers ("message-id") (""))
          (headerLookup msg.headers ("references") ("")) ∧
      summarize_email_with_gemini gen msg = summarize_email_with_gemini gen' msg) ∧
    (∀ gen gen' : String → Except String String, ∀ msg : FetchedMessage, ∀ b : String,
      get_email_body pyDecodeData msg.payload = .ok b → b ≠ "" →
      (summarizePrompt (headerLookup msg.headers ("subject") ("No Subject")) b =
        summarizePrompt (headerLookup msg.headers ("subject") ("No Subject")) (pyTake b 3000)) ∧
      (gen (summarizePrompt (headerLookup msg.headers ("subject") ("No Subject")) b) =
        gen' (summarizePrompt (headerLookup msg.headers ("subject") ("No Subject")) b) →
        summarize_email_with_gemini gen msg = summarize_email_with_gemini gen' msg) ∧
      (∀ t, gen (summarizePrompt (headerLookup msg.headers ("subject") ("No Subject")) b) = .ok t →
        summarize_email_with_gemini gen msg =
          SummarizeResult.success t (headerLookup msg.headers ("subject") ("No Subject")) b
            (extractSenderAddress (headerLookup msg.headers ("from") ("")))
            msg.threadId (headerLookup msg.headers ("message-id") (""))
            (headerLookup msg.headers ("references") ("")))) := by
  constructor
  · intro gen gen' msg hb
    constructor <;> simp [summarize_email_with_gemini, hb]
  · intro gen gen' msg b hb hne
    refine ⟨?_, ?_, ?_⟩
    · simp [summarizePrompt, pyTake, List.take_take]
    · intro hg
      simp [summarize_email_with_gemini, hb, hne, hg]
    · intro t ht
      simp [summarize_email_with_gemini, hb, hne, ht]

/-- The summarize contract at concrete empty-body and non-empty-body
messages. -/
theorem summarize_empty_body_spec_witness :
    (summarize_email_with_gemini (fun _ => .ok ("sum"))
        (FetchedMessage.mk (some ("T")) [] (Payload.leaf none none)) =
      summarize_email_with_gemini (fun _ => .error ("backend down"))
        (FetchedMessage.mk (some ("T")) [] (Payload.leaf none none))) ∧
    (summarize_email_with_gemini (fun _ => .ok ("sum"))
        (FetchedMessage.mk (some ("T")) [] (Payload.leaf none none))).summaryOf =
      some ("Could not extract email body to summarize.") ∧
    (summarize_email_with_gemini (fun _ => .ok ("sum"))
        (FetchedMessage.mk none [] (Payload.leaf (some ("text/plain")) (some ("aGk="))))).summaryOf =
      some ("sum") := by
  have hb0 : get_email_body pyDecodeData (Payload.leaf (none : Option String) none) = .ok ("") := by
    rw [get_email_body_leaf]
    rfl
  have hb2 : get_email_body pyDecodeData (Payload.leaf (some ("text/plain")) (some ("aGk="))) =
      .ok ("hi") := by
    rw [get_email_body_leaf]
    rfl
  refine ⟨(summarize_empty_body_spec.1 (fun _ => .ok ("sum")) (fun _ => .error ("backend down"))
      (FetchedMessage.mk (some ("T")) [] (Payload.leaf none none)) hb0).2, ?_, ?_⟩
  · rw [(summarize_empty_body_spec.1 (fun _ => .ok ("sum")) (fun _ => .ok ("sum"))
      (FetchedMessage.mk (some ("T")) [] (Payload.leaf none none)) hb0).1]
    rfl
  · rw [(summarize_empty_body_spec.2 (fun _ => .ok ("sum")) (fun _ => .ok ("sum"))
      (FetchedMessage.mk none [] (Payload.leaf (some ("text/plain")) (some ("aGk="))))
      ("hi") hb2 (by decide)).2.2 ("sum") rfl]
    rfl

/-- C10: on every success envelope the `original_body` field equals the
full extracted body for bodies of any length; the 3000-character truncation
affects only the generation prompt. -/
theorem summarize_original_body_untruncated :
    ∀ (gen : String → Except String String) (msg : FetchedMessage) (b : String),
      get_email_body pyDecodeData msg.payload = .ok b →
      ((summarize_email_with_gemini gen msg).statusOf = "success" →
        (summarize_email_with_gemini gen msg).originalBodyOf = some b) ∧
      summarizePrompt (headerLookup msg.headers ("subject") ("No Subject")) b =
        summarizePrompt (headerLookup msg.headers ("subject") ("No Subject")) (pyTake b 3000) := by
  intro gen msg b hb
  constructor
  · intro hs
    by_cases hbe : b = ""
    · subst hbe
      simp [summarize_email_with_gemini, hb, SummarizeResult.originalBodyOf]
    · cases hg : gen (summarizePrompt (headerLookup msg.headers ("subject") ("No Subject")) b) with
      | ok t =>
        simp [summarize_email_with_gemini, hb, hbe, hg, SummarizeResult.originalBodyOf]
      | error e =>
        exfalso
        simp [summarize_email_with_gemini, hb, hbe, hg, SummarizeResult.statusOf] at hs
  · simp [summarizePrompt, pyTake, List.take_take]

/-- The untruncated-body property at a concrete message. -/
theorem summarize_original_body_untruncated_witness :
    (summarize_email_with_gemini (fun _ => .ok ("sum"))
        (FetchedMessage.mk none [] (Payload.leaf (some ("text/plain")) (some ("aGk="))))).originalBodyOf =
      some ("hi") ∧
    summarizePrompt ("No Subject") ("hi") = summarizePrompt ("No Subject") (pyTake ("hi") 3000) := by
  have hb2 : get_email_body pyDecodeData (Payload.leaf (some ("text/plain")) (some ("aGk="))) =
      .ok ("hi") := by
    rw [get_email_body_leaf]
    rfl
  obtain ⟨h1, h2⟩ := summarize_original_body_untruncated (fun _ => .ok ("sum"))
    (FetchedMessage.mk none [] (Payload.leaf (some ("text/plain")) (some ("aGk=")))) ("hi") hb2
  refine ⟨h1 ?_, h2⟩
  simp [summarize_email_with_gemini, hb2, SummarizeResult.statusOf]

/-- C9 counterexample: a leaf payload carrying the malformed transport data
`AB` makes `extractBody` raise the `Incorrect padding` error of the base64
decoder instead of returning a string. -/
theorem extract_body_error_counterexample :
    get_email_body pyDecodeData (Payload.leaf (some ("text/plain")) (some ("AB"))) =
      .error ("Incorrect padding") ∧
    pyDecodeData ("AB") = .error ("Incorrect padding") := by
  constructor
  · rw [get_email_body_leaf]
    rfl
  · rfl

/-- The first scan cannot fail when the decoder cannot fail. -/
theorem plainPartScan_ok (decode : String → Except String String)
    (hdec : ∀ d, ∃ s, decode d = .ok s) (parts : List Payload) :
    ∃ o, plainPartScan decode parts = .ok o := by
  induction parts with
  | nil => exact ⟨none, rfl⟩
  | cons p ps ih =>
    by_cases hmt : p.mimeType = some ("text/plain")
    · cases hb : p.bodyData with
      | some d =>
        by_cases hd : d = ""
        · simpa [plainPartScan, hmt, hb, hd] using ih
        · obtain ⟨s, hs⟩ := hdec d
          exact ⟨some s, by simp [plainPartScan, hmt, hb, hd, hs, Except.map]⟩
      | none => simpa [plainPartScan, hmt, hb] using ih
    · simpa [plainPartScan, hmt] using ih

/-- C9 (amended): `extractBody` is total and never errors — returning the
empty string when nothing matches — for every payload tree, PROVIDED the
transport decoder never errors; invalid UTF-8 bytes are indeed replaced, but
malformed base64 data makes the decoder, and hence `extractBody`, raise. -/
theorem extract_body_total :
    ∀ decode : String → Except String String, (∀ d, ∃ s, decode d = .ok s) →
      (∀ p, ∃ s, get_email_body decode p = .ok s) ∧
      (∀ mt bd, pyStartsWith ((mt.getD (""))) ("text/") = false →
        get_email_body decode (Payload.leaf mt bd) = .ok ("")) ∧
      (∀ mt bd, get_email_body decode (Payload.multi mt bd []) = .ok ("")) := by
  intro decode hdec
  have hleaf : ∀ mt bd, ∃ s, get_email_body decode (Payload.leaf mt bd) = .ok s := by
    intro mt bd
    rw [get_email_body_leaf]
    by_cases hst : pyStartsWith ((mt.getD (""))) ("text/") = true
    · cases bd with
      | some d =>
        by_cases hd : d = ""
        · exact ⟨"", by simp [hst, hd]⟩
        · obtain ⟨s, hs⟩ := hdec d
          exact ⟨s, by simp [hst, hd, hs]⟩
      | none => exact ⟨"", by simp [hst]⟩
    · exact ⟨"", by simp [hst]⟩
  have main : ∀ n : Nat,
      (∀ p : Payload, sizeOf p ≤ n → ∃ s, get_email_body decode p = .ok s) ∧
      (∀ ps : List Payload, sizeOf ps ≤ n → ∀ body, ∃ s, htmlFallbackScan decode ps body = .ok s) := by
    intro n
    induction n with
    | zero =>
      constructor
      · intro p hp
        cases p with
        | leaf mt bd => simp only [Payload.leaf.sizeOf_spec] at hp; omega
        | multi mt bd parts => simp only [Payload.multi.sizeOf_spec] at hp; omega
      · intro ps hps body
        cases ps with
        | nil => exact ⟨body, htmlFallbackScan_nil decode body⟩
        | cons p ps => simp only [List.cons.sizeOf_spec] at hps; omega
    | succ n ih =>
      constructor
      · intro p hp
        cases p with
        | leaf mt bd => exact hleaf mt bd
        | multi mt bd parts =>
          rw [get_email_body_multi]
          obtain ⟨o, ho⟩ := plainPartScan_ok decode hdec parts
          rw [ho]
          cases o with
          | some s => exact ⟨s, rfl⟩
          | none =>
            have hsz : sizeOf parts ≤ n := by
              have := Payload.multi.sizeOf_spec mt bd parts
              omega
            exact ih.2 parts hsz ("")
      · intro ps hps body
        cases ps with
        | nil => exact ⟨body, htmlFallbackScan_nil decode body⟩
        | cons p ps =>
          have hszp : sizeOf p ≤ n := by
            simp only [List.cons.sizeOf_spec] at hps
            omega
          have hszps : sizeOf ps ≤ n := by
            simp only [List.cons.sizeOf_spec] at hps
            omega
          rw [htmlFallbackScan_cons]
          by_cases hparts : p.hasParts = true
          · rw [if_pos hparts]
            obtain ⟨s, hs⟩ := ih.1 p hszp
            rw [hs]
            by_cases hse : s = ""
            · simpa [hse] using ih.2 ps hszps body
            · exact ⟨s, by simp [hse]⟩
          · rw [if_neg hparts]
            by_cases hmt : p.mimeType = some ("text/html")
            · rw [if_pos hmt]
              cases hb : p.bodyData with
              | some d =>
                by_cases hd : d = ""
                · simpa [hd] using ih.2 ps hszps body
                · by_cases hbody : body = ""
                  · obtain ⟨bdec, hdecd⟩ := hdec d
                    simpa [hd, hbody, hdecd] using ih.2 ps hszps bdec
                  · simpa [hd, hbody] using ih.2 ps hszps body
              | none => simpa using ih.2 ps hszps body
            · rw [if_neg hmt]
              exact ih.2 ps hszps body
  refine ⟨fun p => (main (sizeOf p)).1 p le_rfl, ?_, ?_⟩
  · intro mt bd hst
    rw [get_email_body_leaf]
    simp [hst]
  · intro mt bd
    rw [get_email_body_multi]
    simp [plainPartScan, htmlFallbackScan_nil]

/-- Totality under a never-failing decoder at concrete payloads. -/
theorem extract_body_total_witness :
    get_email_body (fun d => Except.ok d) (Payload.leaf none none) = .ok ("") ∧
    get_email_body (fun d => Except.ok d) (Payload.multi none none []) = .ok ("") :=
  ⟨(extract_body_total (fun d => Except.ok d) (fun d => ⟨d, rfl⟩)).2.1 none none (by decide),
   (extract_body_total (fun d => Except.ok d) (fun d => ⟨d, rfl⟩)).2.2 none none⟩
